import Mathlib

/-!
Verification of the multistream-select listener (acceptor) half:
a shallow embedding of `misc/multistream-select/src/protocol/listener.rs`.

Bytes are modelled as `Nat` values (the ASCII code points); a frame is a
`List Nat`.  The asynchronous environment (the `LengthDelimited` framed
channel) is modelled by explicit answer oracles: each poll of the inner
stream or sink consumes one answer from a list.
-/

namespace MultistreamSelect

/-- A frame: a sequence of bytes. -/
abbrev Frame := List Nat

/-- Wire literal of the handshake header, `/multistream/1.0.0\n`.
Modelled from the spec: the constant `MSG_MULTISTREAM_1_0` lives in the
protocol module (`protocol/mod.rs`), which is not part of the excerpt; the
exact bytes are fixed by the spec's wire-literal table (one frame,
newline-terminated). -/
def MSG_MULTISTREAM_1_0 : Frame :=
  [47, 109, 117, 108, 116, 105, 115, 116, 114, 101, 97, 109, 47, 49, 46, 48, 46, 48, 10]

/-- Wire literal of the list-protocols request, `ls\n`.
Modelled from the spec: the constant `MSG_LS` lives in `protocol/mod.rs`,
which is not part of the excerpt; the bytes are fixed by the spec's
wire-literal table. -/
def MSG_LS : Frame := [108, 115, 10]

/-- The error taxonomy (`MultistreamSelectError` in `protocol/mod.rs`);
the variant names are the ones the excerpt uses: `FailedHandshake` on a bad
header, `UnknownMessage` on an undecodable frame, `InvalidProtocolName` in
the `wrong_proto_name` test, and a transport-level error wrapping category. -/
inductive MultistreamSelectError
  | TransportError
  | FailedHandshake
  | UnknownMessage
  | InvalidProtocolName
  deriving DecidableEq, Repr

/-- Messages from dialer to listener (`Request` in the code): a protocol
proposal carrying a name, or the list-protocols request. -/
inductive Request
  | Protocol (name : Frame)
  | ListProtocols
  deriving DecidableEq, Repr

/-- Messages from listener to dialer (`Response` in the code): acceptance of
a protocol name, not-available, or the list of supported protocols. -/
inductive Response
  | Protocol (name : Frame)
  | ProtocolNotAvailable
  | SupportedProtocols (protocols : List Frame)
  deriving DecidableEq, Repr

/-- `Async` outcome of a non-blocking poll (futures 0.1 `Async`). -/
inductive Async (α : Type)
  | ready (a : α)
  | notReady
  deriving DecidableEq, Repr

/-- `AsyncSink` outcome of a non-blocking `start_send` (futures 0.1):
either the item was accepted, or it is handed back to the caller. -/
inductive AsyncSink (α : Type)
  | Ready
  | NotReady (a : α)
  deriving DecidableEq, Repr

/-- The request-decoding step inlined in `<Listener as Stream>::poll`
(listener.rs lines 103-115): a frame whose first byte is `/` and whose last
byte is `\n` yields `Request::Protocol` with the trailing newline split off
(`msg.split_to(len - 1)`); otherwise a frame equal to `MSG_LS` yields
`Request::ListProtocols`; otherwise the poll fails with `UnknownMessage`. -/
def decode_request (msg : Frame) : Except MultistreamSelectError Request :=
  if msg.head? = some 47 ∧ msg.getLast? = some 10 then
    .ok (.Protocol (msg.take (msg.length - 1)))
  else if msg = MSG_LS then
    .ok .ListProtocols
  else
    .error .UnknownMessage

/-- One answer of the inner framed channel (`LengthDelimited`) to a stream
poll: a frame, end-of-stream (`Ready(None)`), not ready, or an I/O error. -/
inductive InnerStreamPoll
  | frame (f : Frame)
  | eos
  | pending
  | ioError
  deriving DecidableEq, Repr

/-- `<Listener as Stream>::poll` (listener.rs lines 95-116), as a function of
the inner channel's answer to `self.inner.poll()`.  The `Listener` itself
holds no state beyond the channel, so its poll result is fully determined by
that answer. -/
def Listener_stream_poll (e : InnerStreamPoll) :
    Except MultistreamSelectError (Async (Option Request)) :=
  match e with
  | .frame msg =>
    match decode_request msg with
    | .ok r => .ok (.ready (some r))
    | .error err => .error err
  | .eos => .ok (.ready none)
  | .pending => .ok .notReady
  | .ioError => .error .TransportError

/-- Repeated calls to `<Listener as Stream>::poll`, one per inner answer. -/
def Listener_stream_run (es : List InnerStreamPoll) :
    List (Except MultistreamSelectError (Async (Option Request))) :=
  es.map Listener_stream_poll

/-- Modelled from the spec: `encode_request` (the request encoder lives in the
dialer/protocol module, which is not part of the excerpt).  Per the spec's
message model, the wire form of a proposal is the name followed by the single
newline terminator, and the wire form of `ListProtocols` is the literal `ls`
followed by a newline. -/
def encode_request : Request → Frame
  | .Protocol name => name ++ [10]
  | .ListProtocols => MSG_LS

/-- Modelled from the spec: `Response::encode` (it lives in `protocol/mod.rs`,
which is not part of the excerpt).  Per the spec, `Accept` has the same wire
form as a proposal (name plus newline), `NotAvailable` is the literal `na`
plus newline, and the protocol list enumerates each supported name as its own
newline-terminated line (the exact layout is left open by the spec; it is
rendered here as the concatenation of those lines). -/
def encode_response : Response → Frame
  | .Protocol name => name ++ [10]
  | .ProtocolNotAvailable => [110, 97, 10]
  | .SupportedProtocols protocols => (protocols.map (fun n => n ++ [10])).flatten

/-- One answer of the inner framed channel to a `start_send` attempt. -/
inductive SinkAnswer
  | ready
  | notReady
  | ioErr
  deriving DecidableEq

/-- `<Listener as Sink>::start_send` (listener.rs lines 70-77), as a function
of the inner channel's answer.  The response is encoded and handed to the
channel; the second component records the frame the channel accepted, if any.
When the channel answers `NotReady(_)` the code discards the returned bytes
and hands the original `response` value back to the caller. -/
def Listener_start_send (response : Response) (a : SinkAnswer) :
    Except MultistreamSelectError (AsyncSink Response × Option Frame) :=
  let msg := encode_response response
  match a with
  | .ready => .ok (.Ready, some msg)
  | .notReady => .ok (.NotReady response, none)
  | .ioErr => .error .TransportError

/-- One answer of the inner framed channel to the handshake's `inner.poll()`
while awaiting the first frame: a frame, end-of-stream (`None`), not ready,
or an error. -/
inductive RecvAnswer
  | rframe (f : Frame)
  | reos
  | rpending
  | rerr
  deriving DecidableEq

/-- One answer of the inner framed channel to the handshake's `sender.poll()`
while the header echo is being sent. -/
inductive SendAnswer
  | sdone
  | spending
  | serr
  deriving DecidableEq

/-- The environment: the oracles of answers the framed channel gives to the
receive polls and the send polls, in order.  An exhausted oracle behaves as
perpetual not-ready. -/
structure Env where
  recvs : List RecvAnswer
  sends : List SendAnswer
  deriving DecidableEq

/-- `ListenerFutureState` (listener.rs lines 127-135): awaiting the first
frame, sending the header echo (the `Reply` state carries the frame held by
the in-flight `sink::Send`), or the hole left by `mem::replace`. -/
inductive ListenerFutureState
  | Await
  | Reply (frame : Frame)
  | Undefined
  deriving DecidableEq

/-- Result of one call to `ListenerFuture::poll`: the future resolves to a
`Listener`, stays pending, fails with an error, or panics (the
"poll called after completion" branch). -/
inductive FuturePollRes
  | readyListener
  | notReady
  | failed (e : MultistreamSelectError)
  | panicked
  deriving DecidableEq

/-- `Header::Multistream10.encode` (listener.rs line 160).  Modelled from the
spec: `Header` lives in `protocol/mod.rs`, which is not part of the excerpt;
per the spec both roles exchange exactly the fixed header literal. -/
def Header_Multistream10_encode : Frame := MSG_MULTISTREAM_1_0

/-- The `Reply` arm of `ListenerFuture::poll` (listener.rs lines 164-176):
poll the in-flight send; on completion resolve to the `Listener` (the state
stays `Undefined`, having been taken by `mem::replace`); on not-ready restore
the `Reply` state; on error return the converted transport error. -/
def reply_step (fr : Frame) (env : Env) :
    FuturePollRes × ListenerFutureState × Env :=
  match env.sends with
  | [] => (.notReady, .Reply fr, env)
  | .sdone :: rest => (.readyListener, .Undefined, ⟨env.recvs, rest⟩)
  | .spending :: rest => (.notReady, .Reply fr, ⟨env.recvs, rest⟩)
  | .serr :: rest => (.failed .TransportError, .Undefined, ⟨env.recvs, rest⟩)

/-- `ListenerFuture::poll` (listener.rs lines 141-181).  The state is taken
with `mem::replace(_, Undefined)` and only restored on the not-ready paths.
In `Await`, the first answer is consumed: not-ready restores `Await`; an
error returns the converted transport error; a first message that is not
exactly `Some(MSG_MULTISTREAM_1_0)` (including end-of-stream) fails with
`FailedHandshake`; on an exact match the header literal is encoded and the
loop continues directly into the `Reply` arm.  In `Undefined`, the code
panics with "ListenerFutureState::poll called after completion". -/
def ListenerFuture_poll (s : ListenerFutureState) (env : Env) :
    FuturePollRes × ListenerFutureState × Env :=
  match s with
  | .Undefined => (.panicked, .Undefined, env)
  | .Reply fr => reply_step fr env
  | .Await =>
    match env.recvs with
    | [] => (.notReady, .Await, env)
    | .rpending :: rest => (.notReady, .Await, ⟨rest, env.sends⟩)
    | .rerr :: rest => (.failed .TransportError, .Undefined, ⟨rest, env.sends⟩)
    | .reos :: rest => (.failed .FailedHandshake, .Undefined, ⟨rest, env.sends⟩)
    | .rframe f :: rest =>
      if f = MSG_MULTISTREAM_1_0 then
        reply_step Header_Multistream10_encode ⟨rest, env.sends⟩
      else
        (.failed .FailedHandshake, .Undefined, ⟨rest, env.sends⟩)

/-- Repeated calls to `ListenerFuture::poll`: the list of results of `n`
consecutive polls, together with the final state and environment. -/
def ListenerFuture_run :
    Nat → ListenerFutureState → Env → List FuturePollRes × ListenerFutureState × Env
  | 0, s, env => ([], s, env)
  | n + 1, s, env =>
    let p := ListenerFuture_poll s env
    let r := ListenerFuture_run n p.2.1 p.2.2
    (p.1 :: r.1, r.2)

/-- Outcome of the dialer's interpretation of one response to a proposal. -/
inductive DialOutcome
  | success (name : Frame)
  | rejected
  | failure (e : MultistreamSelectError)
  deriving DecidableEq

/-- Modelled from the spec: the dialer's `AwaitingResponse` step (the dialer
state machine is not part of the excerpt).  `Accept` carrying exactly the
proposed candidate succeeds; `Accept` carrying any other name fails with
`InvalidProtocolName` (the spec's `ProtocolNameMismatch`), fatally and
without internal retry; `NotAvailable` hands the rejection back to the
caller; a protocol list in reply to a proposal is a sequencing error. -/
def dialer_interpret_response (proposed : Frame) : Response → DialOutcome
  | .Protocol name =>
    if name = proposed then .success name else .failure .InvalidProtocolName
  | .ProtocolNotAvailable => .rejected
  | .SupportedProtocols _ => .failure .UnknownMessage

/-! ## Theorems -/

/-- Claim C2: request decoding is a three-way case split.  A frame whose
first byte is `/` and whose last byte is `\n` decodes to `Propose`
(`Request::Protocol`) with exactly the single trailing newline removed and
nothing else altered; otherwise a frame equal to the literal `ls\n` decodes
to `ListProtocols`; any other frame fails with `UnknownMessage` — no partial
matches and no trimming. -/
theorem decode_request_spec (msg : Frame) :
    (msg.head? = some 47 ∧ msg.getLast? = some 10 →
      decode_request msg = .ok (.Protocol msg.dropLast)) ∧
    (¬(msg.head? = some 47 ∧ msg.getLast? = some 10) → msg = MSG_LS →
      decode_request msg = .ok .ListProtocols) ∧
    (¬(msg.head? = some 47 ∧ msg.getLast? = some 10) → msg ≠ MSG_LS →
      decode_request msg = .error .UnknownMessage) := by
  refine ⟨fun h => ?_, fun h1 h2 => ?_, fun h1 h2 => ?_⟩
  · simp only [decode_request, if_pos h, List.dropLast_eq_take]
  · subst h2; rfl
  · simp only [decode_request, if_neg h1, if_neg h2]

/-- Witness for C2 at the concrete frame `/p\n`. -/
theorem decode_request_spec_witness :
    decode_request [47, 112, 10] = .ok (.Protocol ([47, 112, 10] : Frame).dropLast) :=
  (decode_request_spec [47, 112, 10]).1 (by decide)

/-- Claim C3: the encode/decode round trip is the identity.  For every name
that starts with `/` and contains no newline byte, decoding the encoding of
`Propose` returns the same name, and decoding the encoding of
`ListProtocols` returns `ListProtocols`. -/
theorem decode_encode_request (n : Frame) (h1 : n.head? = some 47)
    (h2 : 10 ∉ n) :
    decode_request (encode_request (.Protocol n)) = .ok (.Protocol n) ∧
    decode_request (encode_request .ListProtocols) = .ok .ListProtocols := by
  refine ⟨?_, rfl⟩
  have hh : (n ++ [10]).head? = some 47 := by
    cases n with
    | nil => simp at h1
    | cons x xs => simpa using h1
  have hl : (n ++ [10]).getLast? = some 10 := List.getLast?_concat n
  simp only [encode_request, decode_request, if_pos (And.intro hh hl),
    ← List.dropLast_eq_take, List.dropLast_concat]

/-- Witness for C3 at the concrete name `/a`. -/
theorem decode_encode_request_witness :
    decode_request (encode_request (.Protocol [47, 97])) = .ok (.Protocol [47, 97]) ∧
    decode_request (encode_request .ListProtocols) = .ok .ListProtocols :=
  decode_encode_request [47, 97] (by decide) (by decide)

/-- Claim C10: the decoder accepts frames with interior newlines.  Every
frame of length at least 2 whose first byte is `/` and whose last byte is
`\n` decodes to `Propose` of the frame minus the trailing newline, even when
that name contains newline bytes; hence there is a frame accepted as a
proposal that the encoder cannot produce from any newline-free name, so the
set of accepted frames is strictly larger than the encoder's image. -/
theorem decode_request_interior_newlines :
    (∀ msg : Frame, 2 ≤ msg.length → msg.head? = some 47 →
      msg.getLast? = some 10 →
      decode_request msg = .ok (.Protocol msg.dropLast)) ∧
    (∃ f : Frame, decode_request f = .ok (.Protocol f.dropLast) ∧
      10 ∈ f.dropLast ∧
      ∀ n : Frame, n.head? = some 47 → 10 ∉ n →
        encode_request (.Protocol n) ≠ f) := by
  constructor
  · intro msg _ hh hl
    simp only [decode_request, if_pos (And.intro hh hl), List.dropLast_eq_take]
  · refine ⟨[47, 97, 10, 98, 10], rfl, by decide, ?_⟩
    intro n _ h2 heq
    simp only [encode_request] at heq
    have hn : n = [47, 97, 10, 98] := by
      have := congrArg List.dropLast heq
      simpa [List.dropLast_concat] using this
    subst hn
    exact h2 (by decide)

/-- Witness for C10 at the concrete frame `/a\nb\n`. -/
theorem decode_request_interior_newlines_witness :
    decode_request [47, 97, 10, 98, 10] =
      .ok (.Protocol ([47, 97, 10, 98, 10] : Frame).dropLast) :=
  decode_request_interior_newlines.1 [47, 97, 10, 98, 10] (by decide) (by decide)
    (by decide)

/-- Counterexample to claim C5 as stated: the `Listener` keeps no failure
state, so after a poll fails with `UnknownMessage` the very next poll can
still yield a successfully decoded `Request` (here the channel delivers the
undecodable frame `bad\n` and then the proposal `/p\n`). -/
theorem unknown_message_not_latched :
    Listener_stream_run [.frame [98, 97, 100, 10], .frame [47, 112, 10]] =
      [.error .UnknownMessage, .ok (.ready (some (.Protocol [47, 112])))] := rfl

/-- Claim C5 as amended: an `UnknownMessage` failure consumes the offending
frame and surfaces the error, but the `Listener` latches no failure state —
its poll result is a function of the current channel answer alone, so a
subsequent poll of a decodable frame again yields a decoded `Request`.
Ending the producer permanently is the caller-side convention of not polling
a stream after an error, not a behaviour of this code. -/
theorem unknown_message_poll_stateless (bad good : Frame) (r : Request)
    (hbad : decode_request bad = .error .UnknownMessage)
    (hgood : decode_request good = .ok r) :
    Listener_stream_run [.frame bad, .frame good] =
      [.error .UnknownMessage, .ok (.ready (some r))] := by
  simp [Listener_stream_run, Listener_stream_poll, hbad, hgood]

/-- Witness for the amended C5 at the concrete frames `xx\n` and `/q\n`. -/
theorem unknown_message_poll_stateless_witness :
    Listener_stream_run [.frame [120, 120, 10], .frame [47, 113, 10]] =
      [.error .UnknownMessage, .ok (.ready (some (.Protocol [47, 113])))] :=
  unknown_message_poll_stateless [120, 120, 10] [47, 113, 10]
    (.Protocol [47, 113]) rfl rfl

/-- Claim C6: once the framed channel reports end-of-stream, every call to
the request producer returns the clean end-of-stream signal `Ready(None)` —
never an error and never a decoded request — consistently across repeated
calls. -/
theorem eos_clean (es : List InnerStreamPoll) (h : ∀ e ∈ es, e = .eos) :
    ∀ r ∈ Listener_stream_run es, r = .ok (.ready none) := by
  intro r hr
  simp only [Listener_stream_run, List.mem_map] at hr
  obtain ⟨e, he, rfl⟩ := hr
  rw [h e he]
  rfl

/-- Witness for C6: the poll of an end-of-stream answer, as one element of a
run over end-of-stream answers, is the clean end-of-stream result. -/
theorem eos_clean_witness :
    Listener_stream_poll .eos = .ok (.ready none) :=
  eos_clean [.eos] (by decide) (Listener_stream_poll .eos)
    (by simp [Listener_stream_run])

/-- Claim C7: `start_send` encodes the response and forwards it to the
channel as one frame; when the channel is not ready, the result carries back
exactly the original `Response` value (not the encoded bytes), so the caller
can losslessly retry the same item. -/
theorem start_send_backpressure (r : Response) :
    Listener_start_send r .notReady = .ok (.NotReady r, none) ∧
    Listener_start_send r .ready = .ok (.Ready, some (encode_response r)) :=
  ⟨rfl, rfl⟩

/-- Claim C8: an `Accept` carrying a name that differs from the proposed
candidate makes the negotiation fail with `InvalidProtocolName` (the spec's
`ProtocolNameMismatch`), an error distinct from `UnknownMessage` and from
`FailedHandshake`; the outcome is a terminal failure, not an internal
retry. -/
theorem accept_mismatch_fails (p name : Frame) (h : name ≠ p) :
    dialer_interpret_response p (.Protocol name) = .failure .InvalidProtocolName ∧
    MultistreamSelectError.InvalidProtocolName ≠ .UnknownMessage ∧
    MultistreamSelectError.InvalidProtocolName ≠ .FailedHandshake := by
  refine ⟨?_, by decide, by decide⟩
  simp [dialer_interpret_response, h]

/-- Witness for C8: the acceptor echoes `invalid-proto` when `/p` was the
proposed candidate. -/
theorem accept_mismatch_fails_witness :
    dialer_interpret_response [47, 112]
        (.Protocol [105, 110, 118, 97, 108, 105, 100, 45, 112, 114, 111, 116, 111]) =
      .failure .InvalidProtocolName ∧
    MultistreamSelectError.InvalidProtocolName ≠ .UnknownMessage ∧
    MultistreamSelectError.InvalidProtocolName ≠ .FailedHandshake :=
  accept_mismatch_fails [47, 112]
    [105, 110, 118, 97, 108, 105, 100, 45, 112, 114, 111, 116, 111] (by decide)

/-- Helper: from the `Undefined` state every poll panics and nothing else
ever happens. -/
theorem run_undefined (n : Nat) (env : Env) :
    ListenerFuture_run n .Undefined env =
      (List.replicate n .panicked, .Undefined, env) := by
  induction n with
  | zero => rfl
  | succ m ih =>
    simp [ListenerFuture_run, ListenerFuture_poll, ih, List.replicate_succ]

/-- Helper: a poll of a non-`Undefined` state that returns not-ready restores
a non-`Undefined` state (the code puts the state back before returning
`NotReady`). -/
theorem poll_notReady_state (s : ListenerFutureState) (env : Env)
    (hs : s ≠ .Undefined) (h : (ListenerFuture_poll s env).1 = .notReady) :
    (ListenerFuture_poll s env).2.1 ≠ .Undefined := by
  cases s with
  | Undefined => exact absurd rfl hs
  | Reply fr =>
    obtain ⟨recvs, sends⟩ := env
    cases sends with
    | nil => simp [ListenerFuture_poll, reply_step]
    | cons b rest =>
      cases b with
      | sdone => simp [ListenerFuture_poll, reply_step] at h
      | spending => simp [ListenerFuture_poll, reply_step]
      | serr => simp [ListenerFuture_poll, reply_step] at h
  | Await =>
    obtain ⟨recvs, sends⟩ := env
    cases recvs with
    | nil => simp [ListenerFuture_poll]
    | cons a rest =>
      cases a with
      | rpending => simp [ListenerFuture_poll]
      | rerr => simp [ListenerFuture_poll] at h
      | reos => simp [ListenerFuture_poll] at h
      | rframe f =>
        by_cases hf : f = MSG_MULTISTREAM_1_0
        · cases sends with
          | nil => simp [ListenerFuture_poll, hf, reply_step]
          | cons b rest2 =>
            cases b with
            | sdone => simp [ListenerFuture_poll, hf, reply_step] at h
            | spending => simp [ListenerFuture_poll, hf, reply_step]
            | serr => simp [ListenerFuture_poll, hf, reply_step] at h
        · simp [ListenerFuture_poll, hf] at h

/-- Helper: one poll step preserves the invariant that any `Reply` state
carries exactly the header literal. -/
theorem poll_reply_frame (s : ListenerFutureState) (env : Env)
    (hs : ∀ g, s = .Reply g → g = MSG_MULTISTREAM_1_0) :
    ∀ g, (ListenerFuture_poll s env).2.1 = .Reply g →
      g = MSG_MULTISTREAM_1_0 := by
  intro g hg
  cases s with
  | Undefined => simp [ListenerFuture_poll] at hg
  | Reply fr =>
    have hfr := hs fr rfl
    obtain ⟨recvs, sends⟩ := env
    cases sends with
    | nil =>
      simp [ListenerFuture_poll, reply_step] at hg
      exact hg ▸ hfr
    | cons b rest =>
      cases b with
      | sdone => simp [ListenerFuture_poll, reply_step] at hg
      | spending =>
        simp [ListenerFuture_poll, reply_step] at hg
        exact hg ▸ hfr
      | serr => simp [ListenerFuture_poll, reply_step] at hg
  | Await =>
    obtain ⟨recvs, sends⟩ := env
    cases recvs with
    | nil => simp [ListenerFuture_poll] at hg
    | cons a rest =>
      cases a with
      | rpending => simp [ListenerFuture_poll] at hg
      | rerr => simp [ListenerFuture_poll] at hg
      | reos => simp [ListenerFuture_poll] at hg
      | rframe f =>
        by_cases hf : f = MSG_MULTISTREAM_1_0
        · cases sends with
          | nil =>
            simp [ListenerFuture_poll, hf, reply_step,
              Header_Multistream10_encode] at hg
            first
            | exact hg
            | exact hg.symm
          | cons b rest2 =>
            cases b with
            | sdone => simp [ListenerFuture_poll, hf, reply_step] at hg
            | spending =>
              simp [ListenerFuture_poll, hf, reply_step,
                Header_Multistream10_encode] at hg
              first
              | exact hg
              | exact hg.symm
            | serr => simp [ListenerFuture_poll, hf, reply_step] at hg
        · simp [ListenerFuture_poll, hf] at hg

/-- Helper: any number of polls preserves the invariant that any `Reply`
state carries exactly the header literal. -/
theorem run_reply_frame (n : Nat) :
    ∀ (s : ListenerFutureState) (env : Env),
      (∀ g, s = .Reply g → g = MSG_MULTISTREAM_1_0) →
      ∀ g, (ListenerFuture_run n s env).2.1 = .Reply g →
        g = MSG_MULTISTREAM_1_0 := by
  induction n with
  | zero =>
    intro s env hs g h
    exact hs g (by simpa [ListenerFuture_run] using h)
  | succ m ih =>
    intro s env hs g h
    refine ih (ListenerFuture_poll s env).2.1 (ListenerFuture_poll s env).2.2
      (poll_reply_frame s env hs) g ?_
    simpa [ListenerFuture_run] using h

/-- Helper: a run started in the `Reply` state resolves to the `Listener`
only if the channel reports a completed send. -/
theorem reply_run_ready (n : Nat) :
    ∀ (fr : Frame) (env : Env),
      FuturePollRes.readyListener ∈ (ListenerFuture_run n (.Reply fr) env).1 →
      SendAnswer.sdone ∈ env.sends := by
  induction n with
  | zero => intro fr env h; simp [ListenerFuture_run] at h
  | succ m ih =>
    intro fr env h
    obtain ⟨recvs, sends⟩ := env
    cases sends with
    | nil =>
      simp [ListenerFuture_run, ListenerFuture_poll, reply_step] at h
      have := ih fr ⟨recvs, []⟩ h
      simp at this
    | cons b rest =>
      cases b with
      | sdone => simp
      | spending =>
        simp [ListenerFuture_run, ListenerFuture_poll, reply_step] at h
        have := ih fr ⟨recvs, rest⟩ h
        exact List.mem_cons_of_mem _ this
      | serr =>
        simp [ListenerFuture_run, ListenerFuture_poll, reply_step,
          run_undefined, List.mem_replicate] at h

/-- Helper: a run started in the `Await` state resolves to the `Listener`
only if the channel's first real answer was exactly the header frame and the
channel reported a completed send of the echo. -/
theorem await_run_ready (n : Nat) :
    ∀ env : Env,
      FuturePollRes.readyListener ∈ (ListenerFuture_run n .Await env).1 →
      ∃ k rest, env.recvs =
          List.replicate k .rpending ++ .rframe MSG_MULTISTREAM_1_0 :: rest ∧
        SendAnswer.sdone ∈ env.sends := by
  induction n with
  | zero => intro env h; simp [ListenerFuture_run] at h
  | succ m ih =>
    intro env h
    obtain ⟨recvs, sends⟩ := env
    cases recvs with
    | nil =>
      simp [ListenerFuture_run, ListenerFuture_poll] at h
      obtain ⟨k, rest, hk, _⟩ := ih ⟨[], sends⟩ h
      exact absurd hk (by simp)
    | cons a rest0 =>
      cases a with
      | rpending =>
        simp [ListenerFuture_run, ListenerFuture_poll] at h
        obtain ⟨k, rest, hk, hs⟩ := ih ⟨rest0, sends⟩ h
        refine ⟨k + 1, rest, ?_, hs⟩
        simp only [List.replicate_succ, List.cons_append]
        simpa using hk
      | rerr =>
        simp [ListenerFuture_run, ListenerFuture_poll, run_undefined,
          List.mem_replicate] at h
      | reos =>
        simp [ListenerFuture_run, ListenerFuture_poll, run_undefined,
          List.mem_replicate] at h
      | rframe f =>
        by_cases hf : f = MSG_MULTISTREAM_1_0
        · subst hf
          cases sends with
          | nil =>
            simp [ListenerFuture_run, ListenerFuture_poll, reply_step] at h
            have := reply_run_ready m Header_Multistream10_encode ⟨rest0, []⟩ h
            simp at this
          | cons b rest2 =>
            cases b with
            | sdone => exact ⟨0, rest0, by simp, by simp⟩
            | spending =>
              simp [ListenerFuture_run, ListenerFuture_poll, reply_step] at h
              have := reply_run_ready m Header_Multistream10_encode
                ⟨rest0, rest2⟩ h
              exact ⟨0, rest0, by simp, List.mem_cons_of_mem _ this⟩
            | serr =>
              simp [ListenerFuture_run, ListenerFuture_poll, reply_step,
                run_undefined, List.mem_replicate] at h
        · simp [ListenerFuture_run, ListenerFuture_poll, hf, run_undefined,
            List.mem_replicate] at h

/-- Claim C1: if the first real frame delivered by the transport is not
exactly `/multistream/1.0.0\n`, the handshake future never resolves to a
`Listener` no matter how long it is polled; once the frame is consumed it
fails with `FailedHandshake`, and `FailedHandshake` is distinct from the
data-decode error `UnknownMessage`. -/
theorem listen_handshake_gate (k n : Nat) (f : Frame) (rest : List RecvAnswer)
    (ss : List SendAnswer) (hf : f ≠ MSG_MULTISTREAM_1_0) :
    FuturePollRes.readyListener ∉
      (ListenerFuture_run n .Await
        ⟨List.replicate k .rpending ++ .rframe f :: rest, ss⟩).1 ∧
    (k < n → FuturePollRes.failed .FailedHandshake ∈
      (ListenerFuture_run n .Await
        ⟨List.replicate k .rpending ++ .rframe f :: rest, ss⟩).1) ∧
    MultistreamSelectError.FailedHandshake ≠ .UnknownMessage := by
  induction k generalizing n with
  | zero =>
    cases n with
    | zero =>
      exact ⟨by simp [ListenerFuture_run], fun h => absurd h (by decide),
        by decide⟩
    | succ m =>
      refine ⟨?_, fun _ => ?_, by decide⟩
      · simp [ListenerFuture_run, ListenerFuture_poll, hf, run_undefined,
          List.mem_replicate]
      · simp [ListenerFuture_run, ListenerFuture_poll, hf, run_undefined]
  | succ k2 ih =>
    cases n with
    | zero =>
      exact ⟨by simp [ListenerFuture_run], fun h => absurd h (by omega),
        by decide⟩
    | succ m =>
      obtain ⟨ih1, ih2, _⟩ := ih m
      refine ⟨?_, fun hlt => ?_, by decide⟩
      · simp only [List.replicate_succ, List.cons_append]
        simp only [ListenerFuture_run, ListenerFuture_poll]
        simp only [List.mem_cons, not_or]
        exact ⟨by simp, ih1⟩
      · have hk2 : k2 < m := by omega
        simp only [List.replicate_succ, List.cons_append]
        simp only [ListenerFuture_run, ListenerFuture_poll]
        exact List.mem_cons_of_mem _ (ih2 hk2)

/-- Witness for C1: a single poll on a transport whose first frame is empty
fails the handshake and never yields a listener. -/
theorem listen_handshake_gate_witness :
    FuturePollRes.readyListener ∉
      (ListenerFuture_run 1 .Await ⟨[.rframe []], []⟩).1 ∧
    (0 < 1 → FuturePollRes.failed .FailedHandshake ∈
      (ListenerFuture_run 1 .Await ⟨[.rframe []], []⟩).1) ∧
    MultistreamSelectError.FailedHandshake ≠ .UnknownMessage :=
  listen_handshake_gate 0 1 [] [] [] (by decide)

/-- Claim C4: in every execution of the listener handshake, any in-flight
echo send carries exactly the header literal `/multistream/1.0.0\n`, and the
future resolves to a `Listener` only if the channel's first real answer was
exactly the header frame and the echo send completed — never before both. -/
theorem listener_echo_and_completion (n : Nat) (env : Env) :
    (∀ g, (ListenerFuture_run n .Await env).2.1 = .Reply g →
      g = MSG_MULTISTREAM_1_0) ∧
    (FuturePollRes.readyListener ∈ (ListenerFuture_run n .Await env).1 →
      ∃ k rest, env.recvs =
          List.replicate k .rpending ++ .rframe MSG_MULTISTREAM_1_0 :: rest ∧
        SendAnswer.sdone ∈ env.sends) :=
  ⟨run_reply_frame n .Await env (fun _ h => ListenerFutureState.noConfusion h),
    await_run_ready n env⟩

/-- Witness for C4: a run that receives the header and completes the send. -/
theorem listener_echo_and_completion_witness :
    ∃ k rest, ([RecvAnswer.rframe MSG_MULTISTREAM_1_0] : List RecvAnswer) =
        List.replicate k .rpending ++ .rframe MSG_MULTISTREAM_1_0 :: rest ∧
      SendAnswer.sdone ∈ [SendAnswer.sdone] :=
  (listener_echo_and_completion 1
    ⟨[.rframe MSG_MULTISTREAM_1_0], [.sdone]⟩).2 (by decide)

/-- Claim C9: polling the handshake future after completion hits the
`Undefined` state and panics — an outcome distinct from every protocol error
and from the normal poll outcomes; conversely, as long as every poll so far
returned not-ready, the state is never left `Undefined`, so that panic
branch is unreachable during a normal in-progress handshake. -/
theorem poll_after_completion_guard :
    (∀ env : Env, ListenerFuture_poll .Undefined env =
      (.panicked, .Undefined, env)) ∧
    (∀ e : MultistreamSelectError,
      FuturePollRes.panicked ≠ .failed e ∧
        FuturePollRes.panicked ≠ .readyListener ∧
        FuturePollRes.panicked ≠ .notReady) ∧
    (∀ (n : Nat) (s : ListenerFutureState) (env : Env), s ≠ .Undefined →
      (∀ r ∈ (ListenerFuture_run n s env).1, r = .notReady) →
      (ListenerFuture_run n s env).2.1 ≠ .Undefined) := by
  refine ⟨fun env => rfl, fun e => ⟨by simp, by simp, by simp⟩, ?_⟩
  intro n
  induction n with
  | zero =>
    intro s env hs _
    simpa [ListenerFuture_run] using hs
  | succ m ih =>
    intro s env hs hall
    have h1 : (ListenerFuture_poll s env).1 = .notReady := by
      apply hall
      simp [ListenerFuture_run]
    have h2 := poll_notReady_state s env hs h1
    have hall2 : ∀ r ∈ (ListenerFuture_run m (ListenerFuture_poll s env).2.1
        (ListenerFuture_poll s env).2.2).1, r = .notReady := by
      intro r hr
      apply hall
      simp only [ListenerFuture_run, List.mem_cons]
      exact Or.inr hr
    have := ih (ListenerFuture_poll s env).2.1 (ListenerFuture_poll s env).2.2
      h2 hall2
    simpa [ListenerFuture_run] using this

/-- Witness for C9: one not-ready poll on a silent channel leaves a defined
state. -/
theorem poll_after_completion_guard_witness :
    (ListenerFuture_run 1 .Await ⟨[], []⟩).2.1 ≠ .Undefined :=
  poll_after_completion_guard.2.2 1 .Await ⟨[], []⟩ (by decide) (by decide)

end MultistreamSelect
